import Mathlib

/-!
# Verification of `compute_cases.py`

Shallow embedding of the corridor-diagnostics pipeline:

* float values are modelled by `FV α`: a finite value of a linear ordered
  field `α`, positive infinity, negative infinity, or NaN, with the
  IEEE-754 comparison/arithmetic semantics the numpy/python code relies on
  (any comparison against NaN is false, `x/0` is `±inf` for `x ≠ 0` and NaN
  for `0/0`, ...);
* `calc'` embeds the source function `calc` (the keyword `calc` cannot be
  a Lean identifier, hence the prime);
* `classifyCRS` embeds the source function `classifyCRS`;
* `DataFrame` models a pandas data frame as an ordered association list of
  named columns; `DataFrame.setCol` models column assignment
  (`df["name"] = vals`): it replaces an existing column in place and
  appends a new one at the end, exactly as pandas does;
* `main'` embeds the source function `main`; reading a required column
  that is absent is modelled by `Except.error name` (the `KeyError` pandas
  raises, which aborts the run before any output is written).

The square root is passed in as a function argument `sq : α → α` so that
every definition stays computable; the theorems instantiate it with
`Real.sqrt`.
-/

/-- An IEEE-754-style scalar: finite, `+inf`, `-inf`, or NaN. -/
inductive FV (α : Type*) where
  | fin (x : α)
  | inf
  | ninf
  | nan
  deriving DecidableEq, Repr

/-- A pandas data frame: an ordered association list of named columns.
Rows are positional across columns; a well-formed frame has all columns of
one common length (stated as a hypothesis where a theorem needs it). -/
structure DataFrame (α : Type*) where
  cols : List (String × List (FV α))

/-- `df["name"]`: the first column called `name`, if any (pandas raises
`KeyError` otherwise, which the pipeline embedding turns into
`Except.error name`). -/
def DataFrame.getCol? {α : Type*} (df : DataFrame α) (name : String) :
    Option (List (FV α)) :=
  (df.cols.find? (fun c => c.1 == name)).map Prod.snd

/-- `df["name"] = vals`: replace the column in place when the name exists,
append it at the end otherwise — exactly pandas' column assignment. -/
def DataFrame.setCol {α : Type*} (df : DataFrame α) (name : String)
    (vals : List (FV α)) : DataFrame α :=
  if df.cols.any (fun c => c.1 == name) then
    ⟨df.cols.map (fun c => if c.1 == name then (name, vals) else c)⟩
  else
    ⟨df.cols ++ [(name, vals)]⟩

/-- Drop every column whose name occurs in `names` (used to restate the
round-trip property: the output with the derived columns removed). -/
def DataFrame.dropCols {α : Type*} (df : DataFrame α) (names : List String) :
    DataFrame α :=
  ⟨df.cols.filter (fun c => !(names.contains c.1))⟩

/-- The four derived columns of an augmented frame, in output order. -/
def derivedCols {α : Type*} (df : DataFrame α) :
    Option (List (FV α)) × Option (List (FV α)) ×
      Option (List (FV α)) × Option (List (FV α)) :=
  (df.getCol? "R", df.getCol? "sin2phi", df.getCol? "DeltaMix_eV",
    df.getCol? "CRS_auto")

section Model

variable {α : Type*} [LinearOrderedField α]

/-- IEEE negation. -/
def FV.neg : FV α → FV α
  | .fin x => .fin (-x)
  | .inf => .ninf
  | .ninf => .inf
  | .nan => .nan

/-- IEEE absolute value (`np.abs`). -/
def FV.abs : FV α → FV α
  | .fin x => .fin |x|
  | .inf => .inf
  | .ninf => .inf
  | .nan => .nan

/-- IEEE addition. -/
def FV.add : FV α → FV α → FV α
  | .nan, _ => .nan
  | _, .nan => .nan
  | .fin a, .fin b => .fin (a + b)
  | .fin _, .inf => .inf
  | .fin _, .ninf => .ninf
  | .inf, .fin _ => .inf
  | .ninf, .fin _ => .ninf
  | .inf, .inf => .inf
  | .ninf, .ninf => .ninf
  | .inf, .ninf => .nan
  | .ninf, .inf => .nan

/-- IEEE subtraction. -/
def FV.sub (x y : FV α) : FV α := FV.add x (FV.neg y)

/-- IEEE multiplication. -/
def FV.mul : FV α → FV α → FV α
  | .nan, _ => .nan
  | _, .nan => .nan
  | .fin a, .fin b => .fin (a * b)
  | .fin a, .inf => if 0 < a then .inf else if a < 0 then .ninf else .nan
  | .fin a, .ninf => if 0 < a then .ninf else if a < 0 then .inf else .nan
  | .inf, .fin b => if 0 < b then .inf else if b < 0 then .ninf else .nan
  | .ninf, .fin b => if 0 < b then .ninf else if b < 0 then .inf else .nan
  | .inf, .inf => .inf
  | .inf, .ninf => .ninf
  | .ninf, .inf => .ninf
  | .ninf, .ninf => .inf

/-- IEEE division (the real line has a single zero, which the embedding
treats as `+0`; every denominator produced by the program is a
nonnegative absolute value, so this is faithful here). -/
def FV.div : FV α → FV α → FV α
  | .nan, _ => .nan
  | _, .nan => .nan
  | .fin a, .fin b =>
      if b = 0 then (if 0 < a then .inf else if a < 0 then .ninf else .nan)
      else .fin (a / b)
  | .fin _, .inf => .fin 0
  | .fin _, .ninf => .fin 0
  | .inf, .fin b => if b < 0 then .ninf else .inf
  | .ninf, .fin b => if b < 0 then .inf else .ninf
  | .inf, .inf => .nan
  | .inf, .ninf => .nan
  | .ninf, .inf => .nan
  | .ninf, .ninf => .nan

/-- IEEE squaring (`x**2` in the source, with exponent fixed to 2). -/
def FV.pow2 : FV α → FV α
  | .fin x => .fin (x ^ 2)
  | .inf => .inf
  | .ninf => .inf
  | .nan => .nan

/-- IEEE square root (`np.sqrt`), parametrised by the square root `sq`
of the underlying field. -/
def FV.sqrt (sq : α → α) : FV α → FV α
  | .fin x => if x < 0 then .nan else .fin (sq x)
  | .inf => .inf
  | .ninf => .nan
  | .nan => .nan

/-- IEEE `>=` comparison: any comparison involving NaN is false. -/
def FV.ge : FV α → FV α → Bool
  | .nan, _ => false
  | _, .nan => false
  | .fin a, .fin b => decide (b ≤ a)
  | .inf, _ => true
  | .ninf, .ninf => true
  | .ninf, _ => false
  | .fin _, .inf => false
  | .fin _, .ninf => true

/-- `x` is a finite value lying in the closed unit interval. -/
def FV.inUnit (x : FV α) : Prop := ∃ y : α, x = FV.fin y ∧ 0 ≤ y ∧ y ≤ 1

/-- Embedding of the source function `calc` (lines 16-21 of
`compute_cases.py`), one scalar at a time:

    denom = np.sqrt(delta**2 + 4*V**2)
    R = np.abs(delta)/np.abs(V)
    sin2phi = 0.5*(1 - delta/denom)
    DeltaMix = denom
    return R, sin2phi, DeltaMix
-/
def calc' (sq : α → α) (delta V : FV α) : FV α × FV α × FV α :=
  let denom := FV.sqrt sq (FV.add (FV.pow2 delta) (FV.mul (FV.fin 4) (FV.pow2 V)))
  let R := FV.div (FV.abs delta) (FV.abs V)
  let sin2phi := FV.mul (FV.fin (1/2)) (FV.sub (FV.fin 1) (FV.div delta denom))
  (R, sin2phi, denom)

/-- Embedding of the source function `classifyCRS` (lines 23-27 of
`compute_cases.py`); the float literals `0.5`, `0.2`, `0.1` are the exact
rationals `1/2`, `1/5`, `1/10` of the real-valued model:

    if dop >= 0.5 and R >= 5: return 0
    if dop >= 0.2 and R >= 2: return 1
    if dop >= 0.1 and R >= 1: return 2
    return 3
-/
def classifyCRS (dop R : FV α) : ℕ :=
  if FV.ge dop (FV.fin (1/2)) && FV.ge R (FV.fin 5) then 0
  else if FV.ge dop (FV.fin (1/5)) && FV.ge R (FV.fin 2) then 1
  else if FV.ge dop (FV.fin (1/10)) && FV.ge R (FV.fin 1) then 2
  else 3

/-- Elementwise `R` column: first component of `calc` over paired columns. -/
def rVals (sq : α → α) (delta V : List (FV α)) : List (FV α) :=
  List.zipWith (fun d w => (calc' sq d w).1) delta V

/-- Elementwise `sin2phi` column. -/
def s2Vals (sq : α → α) (delta V : List (FV α)) : List (FV α) :=
  List.zipWith (fun d w => (calc' sq d w).2.1) delta V

/-- Elementwise `DeltaMix_eV` column. -/
def dmVals (sq : α → α) (delta V : List (FV α)) : List (FV α) :=
  List.zipWith (fun d w => (calc' sq d w).2.2) delta V

/-- Elementwise `CRS_auto` column, from the source's
`[classifyCRS(d, r) for d, r in zip(df["DeltaOp_eV"], df["R"])]`; the
integer category is stored as a finite value of the frame. -/
def crsVals (dop R : List (FV α)) : List (FV α) :=
  List.zipWith (fun d r => FV.fin ((classifyCRS d r : ℕ) : α)) dop R

/-- Embedding of the source function `main` (lines 29-37 of
`compute_cases.py`; the name `main` is reserved by Lean for entry points,
hence the prime). Reading an absent column is `Except.error name`
(pandas `KeyError`), which aborts the run with no output written;
`Except.ok` carries the augmented frame that is written out. The
columns are read in the order the source reads them. -/
def main' (sq : α → α) (df : DataFrame α) : Except String (DataFrame α) :=
  match df.getCol? "delta_eV" with
  | none => .error "delta_eV"
  | some delta =>
  match df.getCol? "V_eV" with
  | none => .error "V_eV"
  | some V =>
  let df := df.setCol "R" (rVals sq delta V)
  let df := df.setCol "sin2phi" (s2Vals sq delta V)
  let df := df.setCol "DeltaMix_eV" (dmVals sq delta V)
  match df.getCol? "DeltaOp_eV", df.getCol? "R" with
  | none, _ => .error "DeltaOp_eV"
  | some _, none => .error "R"
  | some dop, some Rcol => .ok (df.setCol "CRS_auto" (crsVals dop Rcol))

end Model

section FrameLemmas

variable {α : Type*}

lemma find?_setCol_self (l : List (String × List (FV α))) (n : String)
    (v : List (FV α)) :
    ((if l.any (fun c => c.1 == n) then
        l.map (fun c => if c.1 == n then (n, v) else c)
      else l ++ [(n, v)]).find? (fun c => c.1 == n)) = some (n, v) := by
  have hself : ((n, v).1 == n) = true := by simp
  induction l with
  | nil =>
      rw [if_neg (by simp), List.nil_append]
      exact List.find?_cons_of_pos (p := fun c : String × List (FV α) => c.1 == n) _ hself
  | cons c l ih =>
      cases hc : c.1 == n with
      | true =>
          rw [if_pos (by rw [List.any_cons, hc, Bool.true_or]),
            List.map_cons, if_pos hc]
          exact List.find?_cons_of_pos (p := fun c : String × List (FV α) => c.1 == n) _ hself
      | false =>
          have hany : (c :: l).any (fun c => c.1 == n) =
              l.any (fun c => c.1 == n) := by
            rw [List.any_cons, hc, Bool.false_or]
          cases ha : l.any (fun c => c.1 == n) with
          | true =>
              rw [if_pos (by rw [hany, ha]), List.map_cons,
                if_neg (by simp [hc]),
                List.find?_cons_of_neg (p := fun c : String × List (FV α) => c.1 == n) _ (by simp [hc])]
              have h' := ih
              rw [if_pos ha] at h'
              exact h'
          | false =>
              rw [if_neg (by simp [hany, ha]), List.cons_append,
                List.find?_cons_of_neg (p := fun c : String × List (FV α) => c.1 == n) _ (by simp [hc])]
              have h' := ih
              rw [if_neg (by simp [ha])] at h'
              exact h'

lemma find?_map_replace (l : List (String × List (FV α))) {n m : String}
    (v : List (FV α)) (h : m ≠ n) :
    ((l.map (fun c => if c.1 == n then (n, v) else c)).find?
        (fun c => c.1 == m)) = l.find? (fun c => c.1 == m) := by
  induction l with
  | nil => rfl
  | cons c l ih =>
      cases hc : c.1 == n with
      | true =>
          have hcm : (c.1 == m) = false := by
            rw [eq_of_beq hc]
            exact beq_eq_false_iff_ne.mpr (fun e => h e.symm)
          have hnm : ((n, v).1 == m) = false :=
            beq_eq_false_iff_ne.mpr (fun e => h e.symm)
          rw [List.map_cons, if_pos hc,
            List.find?_cons_of_neg (p := fun c : String × List (FV α) => c.1 == m) _ (by simp [hnm]),
            List.find?_cons_of_neg (p := fun c : String × List (FV α) => c.1 == m) _ (by simp [hcm])]
          exact ih
      | false =>
          cases hm : c.1 == m with
          | true =>
              rw [List.map_cons, if_neg (by simp [hc]),
                List.find?_cons_of_pos (p := fun c : String × List (FV α) => c.1 == m) _ hm,
                List.find?_cons_of_pos (p := fun c : String × List (FV α) => c.1 == m) _ hm]
          | false =>
              rw [List.map_cons, if_neg (by simp [hc]),
                List.find?_cons_of_neg (p := fun c : String × List (FV α) => c.1 == m) _ (by simp [hm]),
                List.find?_cons_of_neg (p := fun c : String × List (FV α) => c.1 == m) _ (by simp [hm])]
              exact ih

lemma find?_append_single (l : List (String × List (FV α))) {n m : String}
    (v : List (FV α)) (h : m ≠ n) :
    ((l ++ [(n, v)]).find? (fun c => c.1 == m)) =
      l.find? (fun c => c.1 == m) := by
  have hnm : ((n, v).1 == m) = false :=
    beq_eq_false_iff_ne.mpr (fun e => h e.symm)
  induction l with
  | nil =>
      rw [List.nil_append,
        List.find?_cons_of_neg (p := fun c : String × List (FV α) => c.1 == m) _ (by simp [hnm])]
  | cons c l ih =>
      cases hm : c.1 == m with
      | true =>
          rw [List.cons_append,
            List.find?_cons_of_pos (p := fun c : String × List (FV α) => c.1 == m) _ hm,
            List.find?_cons_of_pos (p := fun c : String × List (FV α) => c.1 == m) _ hm]
      | false =>
          rw [List.cons_append,
            List.find?_cons_of_neg (p := fun c : String × List (FV α) => c.1 == m) _ (by simp [hm]),
            List.find?_cons_of_neg (p := fun c : String × List (FV α) => c.1 == m) _ (by simp [hm])]
          exact ih

lemma find?_setCol_ne (l : List (String × List (FV α))) {n m : String}
    (v : List (FV α)) (h : m ≠ n) :
    ((if l.any (fun c => c.1 == n) then
        l.map (fun c => if c.1 == n then (n, v) else c)
      else l ++ [(n, v)]).find? (fun c => c.1 == m)) =
      l.find? (fun c => c.1 == m) := by
  cases l.any (fun c => c.1 == n) with
  | true => rw [if_pos rfl, find?_map_replace l v h]
  | false => rw [if_neg Bool.false_ne_true, find?_append_single l v h]

lemma setCol_cols (df : DataFrame α) (n : String) (v : List (FV α)) :
    (df.setCol n v).cols =
      if df.cols.any (fun c => c.1 == n) then
        df.cols.map (fun c => if c.1 == n then (n, v) else c)
      else df.cols ++ [(n, v)] := by
  unfold DataFrame.setCol
  split
  · rfl
  · rfl

lemma getCol?_setCol_self (df : DataFrame α) (n : String) (v : List (FV α)) :
    (df.setCol n v).getCol? n = some v := by
  unfold DataFrame.getCol?
  rw [setCol_cols, find?_setCol_self]
  rfl

lemma getCol?_setCol_ne (df : DataFrame α) {n m : String} (v : List (FV α))
    (h : m ≠ n) :
    (df.setCol n v).getCol? m = df.getCol? m := by
  unfold DataFrame.getCol?
  rw [setCol_cols, find?_setCol_ne df.cols v h]

lemma getCol?_dropCols (df : DataFrame α) (names : List String) {m : String}
    (h : names.contains m = false) :
    (df.dropCols names).getCol? m = df.getCol? m := by
  unfold DataFrame.dropCols DataFrame.getCol?
  rw [show (⟨df.cols.filter fun c => !(names.contains c.1)⟩ :
      DataFrame α).cols = df.cols.filter fun c => !(names.contains c.1)
      from rfl]
  congr 1
  induction df.cols with
  | nil => rfl
  | cons c l ih =>
      cases hk : names.contains c.1 with
      | true =>
          have hcm : (c.1 == m) = false := by
            refine beq_eq_false_iff_ne.mpr (fun e => ?_)
            rw [e] at hk
            rw [hk] at h
            exact Bool.noConfusion h
          rw [List.filter_cons_of_neg (by rw [hk]; exact fun hh => Bool.noConfusion hh),
            List.find?_cons_of_neg (p := fun c : String × List (FV α) => c.1 == m) _ (by simp [hcm])]
          exact ih
      | false =>
          cases hm : c.1 == m with
          | true =>
              rw [List.filter_cons_of_pos (by rw [hk]; rfl),
                List.find?_cons_of_pos (p := fun c : String × List (FV α) => c.1 == m) _ hm,
                List.find?_cons_of_pos (p := fun c : String × List (FV α) => c.1 == m) _ hm]
          | false =>
              rw [List.filter_cons_of_pos (by rw [hk]; rfl),
                List.find?_cons_of_neg (p := fun c : String × List (FV α) => c.1 == m) _ (by simp [hm]),
                List.find?_cons_of_neg (p := fun c : String × List (FV α) => c.1 == m) _ (by simp [hm])]
              exact ih

end FrameLemmas

section ScalarLemmas

variable {α : Type*} [LinearOrderedField α]

@[simp] lemma FV.neg_fin (a : α) : FV.neg (FV.fin a) = FV.fin (-a) := rfl

@[simp] lemma FV.abs_fin (a : α) : FV.abs (FV.fin a) = FV.fin |a| := rfl

@[simp] lemma FV.add_fin_fin (a b : α) :
    FV.add (FV.fin a) (FV.fin b) = FV.fin (a + b) := rfl

@[simp] lemma FV.sub_fin_fin (a b : α) :
    FV.sub (FV.fin a) (FV.fin b) = FV.fin (a - b) := by
  simp [FV.sub, sub_eq_add_neg]

@[simp] lemma FV.mul_fin_fin (a b : α) :
    FV.mul (FV.fin a) (FV.fin b) = FV.fin (a * b) := rfl

@[simp] lemma FV.pow2_fin (a : α) : FV.pow2 (FV.fin a) = FV.fin (a ^ 2) := rfl

lemma FV.sqrt_fin_of_nonneg (sq : α → α) {a : α} (h : 0 ≤ a) :
    FV.sqrt sq (FV.fin a) = FV.fin (sq a) := by
  simp [FV.sqrt, not_lt.mpr h]

lemma FV.div_fin_fin_of_ne {b : α} (a : α) (h : b ≠ 0) :
    FV.div (FV.fin a) (FV.fin b) = FV.fin (a / b) := by
  simp [FV.div, h]

lemma FV.div_fin_zero_of_pos {a : α} (h : 0 < a) :
    FV.div (FV.fin a) (FV.fin 0) = FV.inf := by
  simp [FV.div, h]

@[simp] lemma FV.div_zero_zero :
    FV.div (FV.fin (0 : α)) (FV.fin 0) = FV.nan := by
  simp [FV.div]

@[simp] lemma FV.mul_fin_nan (a : α) : FV.mul (FV.fin a) FV.nan = FV.nan := rfl

@[simp] lemma FV.sub_fin_nan (a : α) : FV.sub (FV.fin a) FV.nan = FV.nan := rfl

@[simp] lemma FV.div_fin_nan (a : α) : FV.div (FV.fin a) FV.nan = FV.nan := rfl

@[simp] lemma FV.ge_fin_fin (a b : α) :
    FV.ge (FV.fin a) (FV.fin b) = decide (b ≤ a) := rfl

@[simp] lemma FV.ge_nan_left (y : FV α) : FV.ge FV.nan y = false := by
  cases y <;> rfl

@[simp] lemma FV.ge_nan_right (x : FV α) : FV.ge x FV.nan = false := by
  cases x <;> rfl

@[simp] lemma FV.ge_inf_fin (b : α) : FV.ge FV.inf (FV.fin b) = true := rfl

/-- The `DeltaMix` component on finite arguments:
`sqrt(delta^2 + 4*V^2)`, always finite because the radicand is a sum of
squares. -/
lemma calc'_deltaMix (sq : α → α) (d w : α) :
    (calc' sq (FV.fin d) (FV.fin w)).2.2 = FV.fin (sq (d ^ 2 + 4 * w ^ 2)) := by
  unfold calc'
  simp only [FV.pow2_fin, FV.mul_fin_fin, FV.add_fin_fin]
  exact FV.sqrt_fin_of_nonneg sq (by positivity)

/-- The `R` component on finite arguments is `|delta| / |V|` under IEEE
division. -/
lemma calc'_R (sq : α → α) (d w : α) :
    (calc' sq (FV.fin d) (FV.fin w)).1 = FV.div (FV.fin |d|) (FV.fin |w|) := rfl

/-- On finite arguments `classifyCRS` is the top-to-bottom decision table
over the field order. -/
lemma classifyCRS_fin (a b : α) :
    classifyCRS (FV.fin a) (FV.fin b) =
      if 1/2 ≤ a ∧ 5 ≤ b then 0
      else if 1/5 ≤ a ∧ 2 ≤ b then 1
      else if 1/10 ≤ a ∧ 1 ≤ b then 2
      else 3 := by
  simp only [classifyCRS, FV.ge_fin_fin, Bool.and_eq_true, decide_eq_true_eq]

end ScalarLemmas

section PipelineLemmas

variable {α : Type*} [LinearOrderedField α]

/-- The frame produced by a successful run, given the three input columns. -/
def augmented (sq : α → α) (df : DataFrame α) (delta V dop : List (FV α)) :
    DataFrame α :=
  (((df.setCol "R" (rVals sq delta V)).setCol "sin2phi"
      (s2Vals sq delta V)).setCol "DeltaMix_eV" (dmVals sq delta V)).setCol
    "CRS_auto" (crsVals dop (rVals sq delta V))

lemma getCol?_aug3_dop (sq : α → α) (df : DataFrame α) (delta V : List (FV α)) :
    (((df.setCol "R" (rVals sq delta V)).setCol "sin2phi"
        (s2Vals sq delta V)).setCol "DeltaMix_eV" (dmVals sq delta V)).getCol?
      "DeltaOp_eV" = df.getCol? "DeltaOp_eV" := by
  rw [getCol?_setCol_ne _ _ (by decide), getCol?_setCol_ne _ _ (by decide),
    getCol?_setCol_ne _ _ (by decide)]

lemma getCol?_aug3_R (sq : α → α) (df : DataFrame α) (delta V : List (FV α)) :
    (((df.setCol "R" (rVals sq delta V)).setCol "sin2phi"
        (s2Vals sq delta V)).setCol "DeltaMix_eV" (dmVals sq delta V)).getCol?
      "R" = some (rVals sq delta V) := by
  rw [getCol?_setCol_ne _ _ (by decide), getCol?_setCol_ne _ _ (by decide),
    getCol?_setCol_self]

lemma main'_ok (sq : α → α) (df : DataFrame α) (delta V dop : List (FV α))
    (hd : df.getCol? "delta_eV" = some delta)
    (hv : df.getCol? "V_eV" = some V)
    (hdop : df.getCol? "DeltaOp_eV" = some dop) :
    main' sq df = .ok (augmented sq df delta V dop) := by
  unfold main' augmented
  rw [hd, hv]
  have h1 := getCol?_aug3_dop sq df delta V
  rw [hdop] at h1
  have h2 := getCol?_aug3_R sq df delta V
  simp only [h1, h2]

lemma main'_err_delta (sq : α → α) (df : DataFrame α)
    (hd : df.getCol? "delta_eV" = none) :
    main' sq df = .error "delta_eV" := by
  unfold main'
  rw [hd]

lemma main'_err_V (sq : α → α) (df : DataFrame α) (delta : List (FV α))
    (hd : df.getCol? "delta_eV" = some delta)
    (hv : df.getCol? "V_eV" = none) :
    main' sq df = .error "V_eV" := by
  unfold main'
  rw [hd, hv]

lemma main'_err_dop (sq : α → α) (df : DataFrame α) (delta V : List (FV α))
    (hd : df.getCol? "delta_eV" = some delta)
    (hv : df.getCol? "V_eV" = some V)
    (hdop : df.getCol? "DeltaOp_eV" = none) :
    main' sq df = .error "DeltaOp_eV" := by
  unfold main'
  rw [hd, hv]
  have h1 := getCol?_aug3_dop sq df delta V
  rw [hdop] at h1
  simp only [h1]

/-- Inversion: a successful run determines the three input columns and the
shape of the output. -/
lemma main'_ok_inv (sq : α → α) (df out : DataFrame α)
    (h : main' sq df = .ok out) :
    ∃ delta V dop, df.getCol? "delta_eV" = some delta ∧
      df.getCol? "V_eV" = some V ∧ df.getCol? "DeltaOp_eV" = some dop ∧
      out = augmented sq df delta V dop := by
  cases hd : df.getCol? "delta_eV" with
  | none => rw [main'_err_delta sq df hd] at h; exact absurd h (by simp)
  | some delta =>
      cases hv : df.getCol? "V_eV" with
      | none => rw [main'_err_V sq df delta hd hv] at h; exact absurd h (by simp)
      | some V =>
          cases hdop : df.getCol? "DeltaOp_eV" with
          | none =>
              rw [main'_err_dop sq df delta V hd hv hdop] at h
              exact absurd h (by simp)
          | some dop =>
              rw [main'_ok sq df delta V dop hd hv hdop] at h
              injection h with h'
              exact ⟨delta, V, dop, rfl, rfl, rfl, h'.symm⟩

/-- The four derived columns of a successful output, as functions of the
three input columns only. -/
lemma derivedCols_augmented (sq : α → α) (df : DataFrame α)
    (delta V dop : List (FV α)) :
    derivedCols (augmented sq df delta V dop) =
      (some (rVals sq delta V), some (s2Vals sq delta V),
        some (dmVals sq delta V), some (crsVals dop (rVals sq delta V))) := by
  unfold derivedCols augmented
  rw [getCol?_setCol_ne _ _ (by decide), getCol?_setCol_ne _ _ (by decide),
    getCol?_setCol_ne _ _ (by decide), getCol?_setCol_self,
    getCol?_setCol_ne _ _ (by decide), getCol?_setCol_ne _ _ (by decide),
    getCol?_setCol_self, getCol?_setCol_ne _ _ (by decide),
    getCol?_setCol_self, getCol?_setCol_self]

end PipelineLemmas

section MoreScalarLemmas

variable {α : Type*} [LinearOrderedField α]

/-- `classifyCRS` against an infinite ratio: every `R`-threshold passes, so
only the `dop` tests decide. -/
lemma classifyCRS_fin_inf (a : α) :
    classifyCRS (FV.fin a) FV.inf =
      if 1/2 ≤ a then 0 else if 1/5 ≤ a then 1 else if 1/10 ≤ a then 2
      else 3 := by
  simp only [classifyCRS, FV.ge_fin_fin, FV.ge, Bool.and_true,
    decide_eq_true_eq]

end MoreScalarLemmas

/-- **C1.** For every pair of real inputs, the `DeltaMix` component returned
by `calc` is `sqrt(delta^2 + 4*V^2)` (elementwise over the columns, this is
the derived column `DeltaMix_eV`). -/
theorem C1_deltaMix_formula (d v : ℝ) :
    (calc' Real.sqrt (FV.fin d) (FV.fin v)).2.2 =
      FV.fin (Real.sqrt (d ^ 2 + 4 * v ^ 2)) :=
  calc'_deltaMix Real.sqrt d v

/-- **C2.** On real inputs the classifier is exactly the decision table,
evaluated top-to-bottom with the first match winning, and on all inputs
(including infinities and NaN) its result is one of `{0,1,2,3}`. -/
theorem C2_decision_table :
    (∀ dop R : ℝ, classifyCRS (FV.fin dop) (FV.fin R) =
        if 0.5 ≤ dop ∧ 5 ≤ R then 0
        else if 0.2 ≤ dop ∧ 2 ≤ R then 1
        else if 0.1 ≤ dop ∧ 1 ≤ R then 2
        else 3) ∧
      ∀ x y : FV ℝ, classifyCRS x y ∈ ({0, 1, 2, 3} : Set ℕ) := by
  constructor
  · intro dop R
    have e1 : (0.5 : ℝ) = 1/2 := by norm_num
    have e2 : (0.2 : ℝ) = 1/5 := by norm_num
    have e3 : (0.1 : ℝ) = 1/10 := by norm_num
    rw [classifyCRS_fin, e1, e2, e3]
  · intro x y
    unfold classifyCRS
    split_ifs <;> simp

/-- **C3.** The classifier is monotone: increasing both `dop` and `R` never
moves the result to a higher (worse) category. -/
theorem C3_classifier_monotone (dop1 R1 dop2 R2 : ℝ) (hdop : dop1 ≤ dop2)
    (hR : R1 ≤ R2) :
    classifyCRS (FV.fin dop2) (FV.fin R2) ≤
      classifyCRS (FV.fin dop1) (FV.fin R1) := by
  rw [classifyCRS_fin, classifyCRS_fin]
  by_cases c0 : 1/2 ≤ dop1 ∧ 5 ≤ R1
  · rw [if_pos c0, if_pos ⟨c0.1.trans hdop, c0.2.trans hR⟩]
  · rw [if_neg c0]
    by_cases c1 : 1/5 ≤ dop1 ∧ 2 ≤ R1
    · rw [if_pos c1]
      by_cases d0 : 1/2 ≤ dop2 ∧ 5 ≤ R2
      · rw [if_pos d0]
        omega
      · rw [if_neg d0, if_pos ⟨c1.1.trans hdop, c1.2.trans hR⟩]
    · rw [if_neg c1]
      by_cases c2 : 1/10 ≤ dop1 ∧ 1 ≤ R1
      · rw [if_pos c2]
        by_cases d0 : 1/2 ≤ dop2 ∧ 5 ≤ R2
        · rw [if_pos d0]
          omega
        · rw [if_neg d0]
          by_cases d1 : 1/5 ≤ dop2 ∧ 2 ≤ R2
          · rw [if_pos d1]
            omega
          · rw [if_neg d1, if_pos ⟨c2.1.trans hdop, c2.2.trans hR⟩]
      · rw [if_neg c2]
        split_ifs <;> omega

/-- Witness for C3 at `(dop1, R1) = (0, 0)` and `(dop2, R2) = (1, 10)`. -/
theorem C3_classifier_monotone_witness :
    (0 : ℝ) ≤ 1 ∧ (0 : ℝ) ≤ 10 ∧
      classifyCRS (FV.fin (1 : ℝ)) (FV.fin (10 : ℝ)) ≤
        classifyCRS (FV.fin (0 : ℝ)) (FV.fin (0 : ℝ)) :=
  ⟨by norm_num, by norm_num,
    C3_classifier_monotone 0 0 1 10 (by norm_num) (by norm_num)⟩

/-- **C6.** Every classifier comparison against NaN is false, so a NaN
`dop` or a NaN `R` falls through to category 3; the classifier is a total
function, so it never raises. -/
theorem C6_nan_falls_through :
    (∀ t : ℝ, FV.ge FV.nan (FV.fin t) = false) ∧
      (∀ x : FV ℝ, classifyCRS FV.nan x = 3) ∧
      (∀ x : FV ℝ, classifyCRS x FV.nan = 3) := by
  refine ⟨fun t => rfl, fun x => ?_, fun x => ?_⟩
  · unfold classifyCRS
    simp
  · unfold classifyCRS
    simp

/-- **C4, counterexample.** The claim "`V_eV == 0` gives infinite `R` and
category 0" fails: at `delta = 1, V = 0, dop = 0` the ratio is infinite but
the category is 3 (the `dop` tests all fail), and at `delta = 0, V = 0` the
ratio is NaN, not infinite. -/
theorem C4_counterexample :
    (calc' Real.sqrt (FV.fin (1 : ℝ)) (FV.fin 0)).1 = FV.inf ∧
      classifyCRS (FV.fin (0 : ℝ))
        (calc' Real.sqrt (FV.fin (1 : ℝ)) (FV.fin 0)).1 = 3 ∧
      (calc' Real.sqrt (FV.fin (0 : ℝ)) (FV.fin 0)).1 = FV.nan := by
  have h1 : (calc' Real.sqrt (FV.fin (1 : ℝ)) (FV.fin 0)).1 = FV.inf := by
    rw [calc'_R, abs_one, abs_zero]
    exact FV.div_fin_zero_of_pos one_pos
  refine ⟨h1, ?_, ?_⟩
  · rw [h1, classifyCRS_fin_inf]
    norm_num
  · rw [calc'_R, abs_zero]
    exact FV.div_zero_zero

/-- **C4, amended.** For every row with `V_eV == 0` and `delta_eV ≠ 0`, the
computed `R` is `+inf`, which satisfies every classifier `R`-threshold; the
row's `CRS_auto` is 0 exactly when additionally `DeltaOp_eV >= 0.5` (for
smaller `DeltaOp_eV` the `dop` tests decide and the category is nonzero:
1, 2 or 3). -/
theorem C4_amended_inf_ratio (d dop : ℝ) (hd : d ≠ 0) :
    (calc' Real.sqrt (FV.fin d) (FV.fin 0)).1 = FV.inf ∧
      (∀ t : ℝ, FV.ge FV.inf (FV.fin t) = true) ∧
      (classifyCRS (FV.fin dop) (calc' Real.sqrt (FV.fin d) (FV.fin 0)).1
          = 0 ↔ 1/2 ≤ dop) := by
  have h1 : (calc' Real.sqrt (FV.fin d) (FV.fin 0)).1 = FV.inf := by
    rw [calc'_R, abs_zero]
    exact FV.div_fin_zero_of_pos (abs_pos.mpr hd)
  refine ⟨h1, fun t => rfl, ?_⟩
  rw [h1, classifyCRS_fin_inf]
  constructor
  · intro h0
    by_contra hlt
    rw [if_neg hlt] at h0
    split_ifs at h0
  · intro hdop
    rw [if_pos hdop]

/-- Witness for the amended C4 at `delta = 1, dop = 0.6`. -/
theorem C4_amended_inf_ratio_witness :
    (1 : ℝ) ≠ 0 ∧
      ((calc' Real.sqrt (FV.fin (1 : ℝ)) (FV.fin 0)).1 = FV.inf ∧
        (∀ t : ℝ, FV.ge FV.inf (FV.fin t) = true) ∧
        (classifyCRS (FV.fin (0.6 : ℝ))
            (calc' Real.sqrt (FV.fin (1 : ℝ)) (FV.fin 0)).1 = 0 ↔
          1/2 ≤ (0.6 : ℝ))) :=
  ⟨by norm_num, C4_amended_inf_ratio 1 0.6 (by norm_num)⟩

/-- **C5, counterexample.** The condition `|delta| <= DeltaMix` is not
equivalent to excluding the `0/0` case: at `delta = 0, V = 0` the
inequality holds (`0 <= 0`) yet `sin2phi` is NaN, hence not in `[0,1]`. -/
theorem C5_counterexample :
    |(0 : ℝ)| ≤ Real.sqrt ((0 : ℝ) ^ 2 + 4 * (0 : ℝ) ^ 2) ∧
      (calc' Real.sqrt (FV.fin (0 : ℝ)) (FV.fin 0)).2.1 = FV.nan ∧
      ¬ FV.inUnit ((calc' Real.sqrt (FV.fin (0 : ℝ)) (FV.fin 0)).2.1) := by
  have h0 : (0 : ℝ) ^ 2 + 4 * 0 ^ 2 = 0 := by norm_num
  have hsin : (calc' Real.sqrt (FV.fin (0 : ℝ)) (FV.fin 0)).2.1 = FV.nan := by
    unfold calc'
    simp only [FV.pow2_fin, FV.mul_fin_fin, FV.add_fin_fin, h0]
    rw [FV.sqrt_fin_of_nonneg _ le_rfl, Real.sqrt_zero, FV.div_zero_zero,
      FV.sub_fin_nan, FV.mul_fin_nan]
  refine ⟨by simp [Real.sqrt_nonneg], hsin, ?_⟩
  rw [hsin]
  rintro ⟨y, hy, -, -⟩
  exact FV.noConfusion hy

/-- **C5, amended.** For every input pair other than `(0, 0)`, the
`sin2phi` value computed by `calc` is a finite value in `[0, 1]`. -/
theorem C5_amended_sin2phi_unit (d v : ℝ) (h : ¬ (d = 0 ∧ v = 0)) :
    FV.inUnit ((calc' Real.sqrt (FV.fin d) (FV.fin v)).2.1) := by
  have hpos : 0 < d ^ 2 + 4 * v ^ 2 := by
    rcases not_and_or.mp h with hd | hv
    · have hsq : 0 < d ^ 2 := (sq_nonneg d).lt_of_ne (Ne.symm (pow_ne_zero 2 hd))
      nlinarith [sq_nonneg v]
    · have hsq : 0 < v ^ 2 := (sq_nonneg v).lt_of_ne (Ne.symm (pow_ne_zero 2 hv))
      nlinarith [sq_nonneg d]
  set q := Real.sqrt (d ^ 2 + 4 * v ^ 2) with hq
  have hqpos : 0 < q := Real.sqrt_pos.mpr hpos
  have habs : |d| ≤ q := by
    rw [hq, ← Real.sqrt_sq_eq_abs]
    exact Real.sqrt_le_sqrt (by nlinarith [sq_nonneg v])
  have hd1 : d / q ≤ 1 := (div_le_one hqpos).mpr ((le_abs_self d).trans habs)
  have hd2 : -1 ≤ d / q := by
    rw [le_div_iff₀ hqpos]
    have h' := neg_le_of_abs_le habs
    linarith
  have hcalc : (calc' Real.sqrt (FV.fin d) (FV.fin v)).2.1 =
      FV.fin (1/2 * (1 - d / q)) := by
    unfold calc'
    simp only [FV.pow2_fin, FV.mul_fin_fin, FV.add_fin_fin]
    rw [FV.sqrt_fin_of_nonneg _ (by positivity), ← hq,
      FV.div_fin_fin_of_ne d (ne_of_gt hqpos), FV.sub_fin_fin, FV.mul_fin_fin]
  rw [hcalc]
  exact ⟨1/2 * (1 - d / q), rfl, by linarith, by linarith⟩

/-- Witness for the amended C5 at `delta = 10, V = 1`. -/
theorem C5_amended_sin2phi_unit_witness :
    ¬ ((10 : ℝ) = 0 ∧ (1 : ℝ) = 0) ∧
      FV.inUnit ((calc' Real.sqrt (FV.fin (10 : ℝ)) (FV.fin 1)).2.1) :=
  ⟨by norm_num, C5_amended_sin2phi_unit 10 1 (by norm_num)⟩

/-- **C9.** When any required column is missing, the pipeline fails with an
error naming a missing required column (the pandas `KeyError`, the spec's
`SchemaError`), and — the run being an `Except.error` — no output frame is
produced, so nothing is written. -/
theorem C9_missing_column_error (df : DataFrame ℝ)
    (h : df.getCol? "delta_eV" = none ∨ df.getCol? "V_eV" = none ∨
      df.getCol? "DeltaOp_eV" = none) :
    ∃ c, c ∈ (["delta_eV", "V_eV", "DeltaOp_eV"] : List String) ∧
      df.getCol? c = none ∧ main' Real.sqrt df = .error c := by
  cases hd : df.getCol? "delta_eV" with
  | none => exact ⟨"delta_eV", by simp, hd, main'_err_delta _ df hd⟩
  | some delta =>
      cases hv : df.getCol? "V_eV" with
      | none => exact ⟨"V_eV", by simp, hv, main'_err_V _ df delta hd hv⟩
      | some V =>
          cases hdop : df.getCol? "DeltaOp_eV" with
          | none =>
              exact ⟨"DeltaOp_eV", by simp, hdop,
                main'_err_dop _ df delta V hd hv hdop⟩
          | some dop =>
              rcases h with h | h | h
              · rw [hd] at h
                exact absurd h (by simp)
              · rw [hv] at h
                exact absurd h (by simp)
              · rw [hdop] at h
                exact absurd h (by simp)

/-- Witness for C9: a one-row frame missing its `V_eV` column. -/
theorem C9_missing_column_error_witness :
    ∃ c, c ∈ (["delta_eV", "V_eV", "DeltaOp_eV"] : List String) ∧
      (DataFrame.mk [("delta_eV", [FV.fin (1 : ℝ)]),
        ("DeltaOp_eV", [FV.fin (1 : ℝ)])]).getCol? c = none ∧
      main' Real.sqrt (DataFrame.mk [("delta_eV", [FV.fin (1 : ℝ)]),
        ("DeltaOp_eV", [FV.fin (1 : ℝ)])]) = .error c :=
  C9_missing_column_error _ (Or.inr (Or.inl rfl))

/-- **C10.** Noninterference: two input frames that agree on the three
columns `delta_eV`, `V_eV`, `DeltaOp_eV` produce runs with identical
outcomes on the four derived columns (and identical error, if any) — no
passthrough column influences any derived value. -/
theorem C10_noninterference (df1 df2 : DataFrame ℝ)
    (h1 : df1.getCol? "delta_eV" = df2.getCol? "delta_eV")
    (h2 : df1.getCol? "V_eV" = df2.getCol? "V_eV")
    (h3 : df1.getCol? "DeltaOp_eV" = df2.getCol? "DeltaOp_eV") :
    (main' Real.sqrt df1).map derivedCols =
      (main' Real.sqrt df2).map derivedCols := by
  cases hd : df1.getCol? "delta_eV" with
  | none => rw [main'_err_delta _ df1 hd, main'_err_delta _ df2 (h1 ▸ hd)]
  | some delta =>
      have hd2 : df2.getCol? "delta_eV" = some delta := h1 ▸ hd
      cases hv : df1.getCol? "V_eV" with
      | none =>
          rw [main'_err_V _ df1 delta hd hv, main'_err_V _ df2 delta hd2 (h2 ▸ hv)]
      | some V =>
          have hv2 : df2.getCol? "V_eV" = some V := h2 ▸ hv
          cases hdop : df1.getCol? "DeltaOp_eV" with
          | none =>
              rw [main'_err_dop _ df1 delta V hd hv hdop,
                main'_err_dop _ df2 delta V hd2 hv2 (h3 ▸ hdop)]
          | some dop =>
              have hdop2 : df2.getCol? "DeltaOp_eV" = some dop := h3 ▸ hdop
              rw [main'_ok _ df1 delta V dop hd hv hdop,
                main'_ok _ df2 delta V dop hd2 hv2 hdop2]
              simp only [Except.map]
              rw [derivedCols_augmented, derivedCols_augmented]

/-- Witness for C10: two frames equal on the three input columns but with
different `note` passthrough columns. -/
theorem C10_noninterference_witness :
    (main' Real.sqrt (DataFrame.mk [("delta_eV", [FV.fin (1 : ℝ)]),
        ("V_eV", [FV.fin 1]), ("DeltaOp_eV", [FV.fin 1]),
        ("note", [FV.fin 7])])).map derivedCols =
      (main' Real.sqrt (DataFrame.mk [("delta_eV", [FV.fin (1 : ℝ)]),
        ("V_eV", [FV.fin 1]), ("DeltaOp_eV", [FV.fin 1]),
        ("note", [FV.fin 99])])).map derivedCols :=
  C10_noninterference _ _ rfl rfl rfl

section AugmentedLemmas

variable {α : Type*} [LinearOrderedField α]

/-- Columns other than the four derived names pass through `augmented`
unchanged. -/
lemma getCol?_augmented_passthrough (sq : α → α) (df : DataFrame α)
    (delta V dop : List (FV α)) {m : String}
    (e1 : m ≠ "CRS_auto") (e2 : m ≠ "DeltaMix_eV") (e3 : m ≠ "sin2phi")
    (e4 : m ≠ "R") :
    (augmented sq df delta V dop).getCol? m = df.getCol? m := by
  unfold augmented
  rw [getCol?_setCol_ne _ _ e1, getCol?_setCol_ne _ _ e2,
    getCol?_setCol_ne _ _ e3, getCol?_setCol_ne _ _ e4]

end AugmentedLemmas

/-- **C8.** The pipeline is idempotent on derived values: dropping the four
derived columns from a successful output and re-running the pipeline
succeeds and reproduces exactly the same four derived columns. -/
theorem C8_idempotent (df out : DataFrame ℝ)
    (h : main' Real.sqrt df = .ok out) :
    ∃ out2, main' Real.sqrt
        (out.dropCols ["R", "sin2phi", "DeltaMix_eV", "CRS_auto"]) =
          .ok out2 ∧
      derivedCols out2 = derivedCols out := by
  obtain ⟨delta, V, dop, hd, hv, hdop, hout⟩ := main'_ok_inv _ df out h
  have hd' : (out.dropCols
      ["R", "sin2phi", "DeltaMix_eV", "CRS_auto"]).getCol? "delta_eV" =
      some delta := by
    rw [getCol?_dropCols _ _ (by rfl), hout,
      getCol?_augmented_passthrough _ _ _ _ _ (by decide) (by decide)
        (by decide) (by decide), hd]
  have hv' : (out.dropCols
      ["R", "sin2phi", "DeltaMix_eV", "CRS_auto"]).getCol? "V_eV" =
      some V := by
    rw [getCol?_dropCols _ _ (by rfl), hout,
      getCol?_augmented_passthrough _ _ _ _ _ (by decide) (by decide)
        (by decide) (by decide), hv]
  have hdop' : (out.dropCols
      ["R", "sin2phi", "DeltaMix_eV", "CRS_auto"]).getCol? "DeltaOp_eV" =
      some dop := by
    rw [getCol?_dropCols _ _ (by rfl), hout,
      getCol?_augmented_passthrough _ _ _ _ _ (by decide) (by decide)
        (by decide) (by decide), hdop]
  refine ⟨augmented Real.sqrt _ delta V dop,
    main'_ok _ _ delta V dop hd' hv' hdop', ?_⟩
  rw [derivedCols_augmented, hout, derivedCols_augmented]

/-- Witness for C8 at the one-row frame `delta = 0, V = 1, dop = 0`. -/
theorem C8_idempotent_witness :
    main' Real.sqrt (DataFrame.mk [("delta_eV", [FV.fin (0 : ℝ)]),
        ("V_eV", [FV.fin 1]), ("DeltaOp_eV", [FV.fin 0])]) =
      .ok (augmented Real.sqrt (DataFrame.mk [("delta_eV", [FV.fin (0 : ℝ)]),
        ("V_eV", [FV.fin 1]), ("DeltaOp_eV", [FV.fin 0])])
        [FV.fin (0 : ℝ)] [FV.fin 1] [FV.fin 0]) ∧
      ∃ out2, main' Real.sqrt
          ((augmented Real.sqrt (DataFrame.mk
            [("delta_eV", [FV.fin (0 : ℝ)]), ("V_eV", [FV.fin 1]),
              ("DeltaOp_eV", [FV.fin 0])])
            [FV.fin (0 : ℝ)] [FV.fin 1] [FV.fin 0]).dropCols
            ["R", "sin2phi", "DeltaMix_eV", "CRS_auto"]) = .ok out2 ∧
        derivedCols out2 = derivedCols (augmented Real.sqrt (DataFrame.mk
          [("delta_eV", [FV.fin (0 : ℝ)]), ("V_eV", [FV.fin 1]),
            ("DeltaOp_eV", [FV.fin 0])])
          [FV.fin (0 : ℝ)] [FV.fin 1] [FV.fin 0]) :=
  ⟨main'_ok _ _ _ _ _ rfl rfl rfl,
    C8_idempotent _ _ (main'_ok _ _ _ _ _ rfl rfl rfl)⟩

section FreshLemmas

variable {α : Type*}

/-- Assigning a column whose name is not yet present appends it. -/
lemma setCol_fresh (df : DataFrame α) {n : String} (v : List (FV α))
    (h : df.cols.any (fun c => c.1 == n) = false) :
    df.setCol n v = ⟨df.cols ++ [(n, v)]⟩ := by
  unfold DataFrame.setCol
  rw [if_neg (by simp [h])]

/-- A name drawn from `names` matches no column of a frame all of whose
column names avoid `names`. -/
lemma any_eq_false_of_fresh (l : List (String × List (FV α)))
    (names : List String)
    (hfresh : l.all (fun c => !(names.contains c.1)) = true)
    (n : String) (hn : names.contains n = true) :
    l.any (fun c => c.1 == n) = false := by
  rw [List.any_eq_false]
  intro c hc hcn
  have h1 := (List.all_eq_true.mp hfresh) c hc
  rw [eq_of_beq hcn, hn] at h1
  exact Bool.noConfusion h1

/-- A column returned by `getCol?` is one of the frame's columns, so it has
the common length. -/
lemma length_of_getCol? (df : DataFrame α) {name : String} {l : List (FV α)}
    {N : ℕ} (h : df.getCol? name = some l)
    (hlen : df.cols.all (fun c => c.2.length == N) = true) :
    l.length = N := by
  unfold DataFrame.getCol? at h
  cases hf : df.cols.find? (fun c => c.1 == name) with
  | none =>
      rw [hf] at h
      exact absurd h (by simp)
  | some c =>
      rw [hf] at h
      have hc : c ∈ df.cols := List.mem_of_find?_eq_some hf
      have hlc := (List.all_eq_true.mp hlen) c hc
      have hcl : c.2 = l := by simpa using h
      rw [← hcl]
      exact eq_of_beq hlc

end FreshLemmas

section FreshAugmented

variable {α : Type*} [LinearOrderedField α]

/-- When the input frame uses none of the four derived names, `augmented`
appends the four new columns after the originals, in output order. -/
lemma augmented_cols_of_fresh (sq : α → α) (df : DataFrame α)
    (delta V dop : List (FV α))
    (hfresh : df.cols.all (fun c =>
      !((["R", "sin2phi", "DeltaMix_eV", "CRS_auto"] : List String).contains
        c.1)) = true) :
    augmented sq df delta V dop = ⟨df.cols ++
      [("R", rVals sq delta V), ("sin2phi", s2Vals sq delta V),
       ("DeltaMix_eV", dmVals sq delta V),
       ("CRS_auto", crsVals dop (rVals sq delta V))]⟩ := by
  have e1 : df.cols.any (fun c => c.1 == "R") = false :=
    any_eq_false_of_fresh df.cols _ hfresh "R" rfl
  have e2 : (df.cols ++ [("R", rVals sq delta V)]).any
      (fun c => c.1 == "sin2phi") = false := by
    rw [List.any_append, any_eq_false_of_fresh df.cols _ hfresh "sin2phi" rfl]
    rfl
  have e3 : ((df.cols ++ [("R", rVals sq delta V)]) ++
      [("sin2phi", s2Vals sq delta V)]).any
      (fun c => c.1 == "DeltaMix_eV") = false := by
    rw [List.any_append, List.any_append,
      any_eq_false_of_fresh df.cols _ hfresh "DeltaMix_eV" rfl]
    rfl
  have e4 : (((df.cols ++ [("R", rVals sq delta V)]) ++
      [("sin2phi", s2Vals sq delta V)]) ++
      [("DeltaMix_eV", dmVals sq delta V)]).any
      (fun c => c.1 == "CRS_auto") = false := by
    rw [List.any_append, List.any_append, List.any_append,
      any_eq_false_of_fresh df.cols _ hfresh "CRS_auto" rfl]
    rfl
  unfold augmented
  rw [setCol_fresh df _ e1, setCol_fresh _ _ e2, setCol_fresh _ _ e3,
    setCol_fresh _ _ e4]
  simp [List.append_assoc]

end FreshAugmented

/-- **C7, amended.** For every input frame that has the three required
columns, whose columns share a common length `N`, and whose column names
avoid the four derived names, the pipeline succeeds and its output is the
input columns, unmodified and in order, followed by the four new columns
`R`, `sin2phi`, `DeltaMix_eV`, `CRS_auto` in that order, each of length `N`
(so the row count and row order are preserved). -/
theorem C7_frame_shape (df : DataFrame ℝ) (N : ℕ) (delta V dop : List (FV ℝ))
    (hd : df.getCol? "delta_eV" = some delta)
    (hv : df.getCol? "V_eV" = some V)
    (hdop : df.getCol? "DeltaOp_eV" = some dop)
    (hlen : df.cols.all (fun c => c.2.length == N) = true)
    (hfresh : df.cols.all (fun c =>
      !((["R", "sin2phi", "DeltaMix_eV", "CRS_auto"] : List String).contains
        c.1)) = true) :
    main' Real.sqrt df = .ok (DataFrame.mk (df.cols ++
        [("R", rVals Real.sqrt delta V), ("sin2phi", s2Vals Real.sqrt delta V),
         ("DeltaMix_eV", dmVals Real.sqrt delta V),
         ("CRS_auto", crsVals dop (rVals Real.sqrt delta V))])) ∧
      (rVals Real.sqrt delta V).length = N ∧
      (s2Vals Real.sqrt delta V).length = N ∧
      (dmVals Real.sqrt delta V).length = N ∧
      (crsVals dop (rVals Real.sqrt delta V)).length = N := by
  have hdl : delta.length = N := length_of_getCol? df hd hlen
  have hvl : V.length = N := length_of_getCol? df hv hlen
  have hdopl : dop.length = N := length_of_getCol? df hdop hlen
  have hrl : (rVals Real.sqrt delta V).length = N := by
    rw [rVals, List.length_zipWith, hdl, hvl, Nat.min_self]
  refine ⟨?_, hrl, ?_, ?_, ?_⟩
  · rw [main'_ok Real.sqrt df delta V dop hd hv hdop,
      augmented_cols_of_fresh Real.sqrt df delta V dop hfresh]
  · rw [s2Vals, List.length_zipWith, hdl, hvl, Nat.min_self]
  · rw [dmVals, List.length_zipWith, hdl, hvl, Nat.min_self]
  · rw [crsVals, List.length_zipWith, hdopl, hrl, Nat.min_self]

/-- **C7, counterexample.** On an input frame that already has a column
named `R` (value `[42]`), the pipeline overwrites that original column in
place (it becomes `[0]`) instead of leaving it unmodified and appending:
the output has 7 columns, not 4 + 4. -/
theorem C7_counterexample :
    (DataFrame.mk [("delta_eV", [FV.fin (0 : ℝ)]), ("V_eV", [FV.fin 1]),
        ("DeltaOp_eV", [FV.fin 0]), ("R", [FV.fin 42])]).getCol? "R" =
      some [FV.fin (42 : ℝ)] ∧
    (main' Real.sqrt (DataFrame.mk [("delta_eV", [FV.fin (0 : ℝ)]),
        ("V_eV", [FV.fin 1]), ("DeltaOp_eV", [FV.fin 0]),
        ("R", [FV.fin 42])])).map (fun out => out.getCol? "R") =
      .ok (some [FV.fin (0 : ℝ)]) ∧
    (main' Real.sqrt (DataFrame.mk [("delta_eV", [FV.fin (0 : ℝ)]),
        ("V_eV", [FV.fin 1]), ("DeltaOp_eV", [FV.fin 0]),
        ("R", [FV.fin 42])])).map (fun out => out.cols.length) = .ok 7 ∧
    (0 : ℝ) ≠ 42 := by
  have hm := main'_ok Real.sqrt (DataFrame.mk
    [("delta_eV", [FV.fin (0 : ℝ)]), ("V_eV", [FV.fin 1]),
      ("DeltaOp_eV", [FV.fin 0]), ("R", [FV.fin 42])])
    [FV.fin (0 : ℝ)] [FV.fin 1] [FV.fin 0] rfl rfl rfl
  have hrv : rVals Real.sqrt [FV.fin (0 : ℝ)] [FV.fin 1] = [FV.fin 0] := by
    unfold rVals
    rw [List.zipWith_cons_cons, calc'_R, abs_zero, abs_one,
      FV.div_fin_fin_of_ne _ one_ne_zero, zero_div]
    rfl
  refine ⟨rfl, ?_, ?_, by norm_num⟩
  · rw [hm]
    simp only [Except.map]
    unfold augmented
    rw [getCol?_setCol_ne _ _ (by decide), getCol?_setCol_ne _ _ (by decide),
      getCol?_setCol_ne _ _ (by decide), getCol?_setCol_self, hrv]
  · rw [hm]
    rfl

/-- Witness for the amended C7 at a one-row frame with one passthrough
column. -/
theorem C7_frame_shape_witness :
    (DataFrame.mk [("delta_eV", [FV.fin (1 : ℝ)]), ("V_eV", [FV.fin 2]),
        ("DeltaOp_eV", [FV.fin 3]), ("note", [FV.fin 4])]).getCol? "delta_eV" =
      some [FV.fin (1 : ℝ)] ∧
    (DataFrame.mk [("delta_eV", [FV.fin (1 : ℝ)]), ("V_eV", [FV.fin 2]),
        ("DeltaOp_eV", [FV.fin 3]), ("note", [FV.fin 4])]).cols.all
      (fun c => c.2.length == 1) = true ∧
    (DataFrame.mk [("delta_eV", [FV.fin (1 : ℝ)]), ("V_eV", [FV.fin 2]),
        ("DeltaOp_eV", [FV.fin 3]), ("note", [FV.fin 4])]).cols.all
      (fun c => !((["R", "sin2phi", "DeltaMix_eV", "CRS_auto"] :
        List String).contains c.1)) = true ∧
    (main' Real.sqrt (DataFrame.mk [("delta_eV", [FV.fin (1 : ℝ)]),
        ("V_eV", [FV.fin 2]), ("DeltaOp_eV", [FV.fin 3]),
        ("note", [FV.fin 4])]) = .ok (DataFrame.mk
        ((DataFrame.mk [("delta_eV", [FV.fin (1 : ℝ)]), ("V_eV", [FV.fin 2]),
          ("DeltaOp_eV", [FV.fin 3]), ("note", [FV.fin 4])]).cols ++
        [("R", rVals Real.sqrt [FV.fin (1 : ℝ)] [FV.fin 2]),
         ("sin2phi", s2Vals Real.sqrt [FV.fin (1 : ℝ)] [FV.fin 2]),
         ("DeltaMix_eV", dmVals Real.sqrt [FV.fin (1 : ℝ)] [FV.fin 2]),
         ("CRS_auto", crsVals [FV.fin (3 : ℝ)]
           (rVals Real.sqrt [FV.fin (1 : ℝ)] [FV.fin 2]))])) ∧
      (rVals Real.sqrt [FV.fin (1 : ℝ)] [FV.fin 2]).length = 1 ∧
      (s2Vals Real.sqrt [FV.fin (1 : ℝ)] [FV.fin 2]).length = 1 ∧
      (dmVals Real.sqrt [FV.fin (1 : ℝ)] [FV.fin 2]).length = 1 ∧
      (crsVals [FV.fin (3 : ℝ)]
        (rVals Real.sqrt [FV.fin (1 : ℝ)] [FV.fin 2])).length = 1) :=
  ⟨rfl, rfl, rfl,
    C7_frame_shape _ 1 _ _ _ rfl rfl rfl rfl rfl⟩
